import Mathlib

/-!
Shallow embedding of the bookworm marketplace backend (Express plus Mongoose)
into Lean 4.  It covers the inventory reservation engine and package read
endpoints (src/src/routes/packageRoutes.js), the order routes
(src/src/routes/orderRoutes.js), the order and rating document models
(src/src/models), and both code rotation schedulers
(src/src/services/codeRotationService.js and the variant in
src/unnamed/part_005).  Times are integer milliseconds since the epoch,
Mongo documents are Lean structures, collections are Lean lists, JS numbers
carrying money are rationals, and fallible handlers return explicit result
types.
-/

namespace Bookworm

/-! ## Reservation engine (packageRoutes.js) -/

/-- A document of the Reservation collection (src/src/models/Reservation.js):
a soft hold of quantity units of a package by a customer, void once
expiresAt has passed. -/
structure Reservation where
  package : Nat
  customer : Nat
  quantity : Int
  expiresAt : Int
deriving Repr, DecidableEq

/-- A document of the Package collection (src/src/models/Package.js), with the
fields the routes consult. -/
structure Package where
  id : Nat
  company : Nat
  price : ℚ
  stock : Int
  isAvailable : Bool
deriving Repr, DecidableEq

/-- The match stage of buildReservationMaps (packageRoutes.js lines 21 to 27):
reservations on one of the requested packages whose expiry is strictly in the
future. -/
def matchedActive (packageIds : List Nat) (now : Int) (rs : List Reservation) :
    List Reservation :=
  rs.filter (fun r => decide (r.package ∈ packageIds) && decide (now < r.expiresAt))

/-- The composite grouping key of the aggregation group stage: the
(package, customer) pair. -/
def reservationKey (r : Reservation) : Nat × Nat :=
  (r.package, r.customer)

/-- The distinct group keys produced by the group stage. -/
def groupKeys (l : List Reservation) : List (Nat × Nat) :=
  (l.map reservationKey).dedup

/-- The summed quantity of one (package, customer) group. -/
def groupQuantity (l : List Reservation) (k : Nat × Nat) : Int :=
  ((l.filter (fun r => reservationKey r == k)).map (fun r => r.quantity)).sum

/-- Reading the reservedTotals map built by buildReservationMaps at a package
id: the JS forEach folds every group of that package into the map entry, and a
missing key reads as 0 (which coincides with the empty sum). -/
def reservedTotalsLookup (packageIds : List Nat) (now : Int) (rs : List Reservation)
    (pid : Nat) : Int :=
  (((groupKeys (matchedActive packageIds now rs)).filter (fun k => k.1 == pid)).map
    (fun k => groupQuantity (matchedActive packageIds now rs) k)).sum

/-- Reading the reservedByCustomer map at a (package, customer) pair: the
quantity of the single matching group, 0 when the key is absent. -/
def reservedByCustomerLookup (packageIds : List Nat) (now : Int) (rs : List Reservation)
    (pid cid : Nat) : Int :=
  groupQuantity (matchedActive packageIds now rs) (pid, cid)

/-- withAvailability (packageRoutes.js lines 55 to 66): the availableStock
field attached to a package read.  The stock field is always a number in this
model, matching the typeof guard of the source. -/
def availableStock (p : Package) (packageIds : List Nat) (now : Int)
    (rs : List Reservation) : Int :=
  max 0 (p.stock - reservedTotalsLookup packageIds now rs p.id)

/-- The availability formula of the specification (spec section 4.3, claim C2):
stock minus the plain sum of the quantities of every unexpired reservation of
the package across all customers, clamped at 0.  This is the comparison side
of the refinement claim, written from the words of the spec. -/
def activeReservedSum (pid : Nat) (now : Int) (rs : List Reservation) : Int :=
  ((rs.filter (fun r => decide (r.package = pid) && decide (now < r.expiresAt))).map
    (fun r => r.quantity)).sum

/-- The sum of the active holds of customers other than cid on package pid,
written from the words of the spec for claim C6 (reservedByOthers). -/
def otherCustomersActiveSum (pid cid : Nat) (now : Int) (rs : List Reservation) : Int :=
  ((rs.filter (fun r => decide (r.package = pid) && decide (now < r.expiresAt)
      && !(decide (r.customer = cid)))).map (fun r => r.quantity)).sum

/-! ## List summation lemmas used to relate the grouped aggregation to plain
sums over the reservation collection -/

theorem sum_map_ite_eq_sum_filter {α : Type} (p : α → Bool) (q : α → Int) :
    ∀ l : List α,
      (l.map (fun r => if p r then q r else 0)).sum = ((l.filter p).map q).sum := by
  intro l
  induction l with
  | nil => rfl
  | cons a t ih =>
    cases h : p a with
    | true => simp [List.filter_cons, h, ih]
    | false => simp [List.filter_cons, h, ih]

theorem sum_map_add_ite {κ : Type} [BEq κ] [LawfulBEq κ] (f : κ → Int) (c : Int) (k0 : κ) :
    ∀ D : List κ, D.Nodup → k0 ∈ D →
      (D.map (fun k => f k + if k0 == k then c else 0)).sum = (D.map f).sum + c := by
  intro D
  induction D with
  | nil => intro _ h; cases h
  | cons d D2 ih =>
    intro hnd hmem
    have hdn : d ∉ D2 := (List.nodup_cons.mp hnd).1
    have hnd2 : D2.Nodup := (List.nodup_cons.mp hnd).2
    rcases List.mem_cons.mp hmem with heq | hmem2
    · subst heq
      have htail : D2.map (fun k => f k + if k0 == k then c else 0) = D2.map f :=
        List.map_congr_left (fun k hk => by
          have hne : (k0 == k) = false := beq_eq_false_iff_ne.mpr (fun h => hdn (h ▸ hk))
          simp [hne])
      simp [htail]
      omega
    · have hne : (k0 == d) = false :=
        beq_eq_false_iff_ne.mpr (fun h => hdn (h ▸ hmem2))
      have := ih hnd2 hmem2
      simp [hne, this]
      omega

theorem sum_over_dedup_fibers {α κ : Type} [DecidableEq κ] [BEq κ] [LawfulBEq κ]
    (key : α → κ) (q : α → Int) :
    ∀ l : List α,
      (((l.map key).dedup).map
          (fun k => ((l.filter (fun r => key r == k)).map q).sum)).sum
        = (l.map q).sum := by
  intro l
  induction l with
  | nil => rfl
  | cons a t ih =>
    have hsplit : ∀ k, (((a :: t).filter (fun r => key r == k)).map q).sum
        = ((t.filter (fun r => key r == k)).map q).sum + (if key a == k then q a else 0) := by
      intro k
      cases h : (key a == k) with
      | true => simp [List.filter_cons, h]; omega
      | false => simp [List.filter_cons, h]
    by_cases hmem : key a ∈ t.map key
    · rw [List.map_cons, List.dedup_cons_of_mem hmem]
      have hcongr : ((t.map key).dedup).map
            (fun k => (((a :: t).filter (fun r => key r == k)).map q).sum)
          = ((t.map key).dedup).map
            (fun k => ((t.filter (fun r => key r == k)).map q).sum
              + (if key a == k then q a else 0)) :=
        List.map_congr_left (fun k _ => hsplit k)
      rw [hcongr,
        sum_map_add_ite (fun k => ((t.filter (fun r => key r == k)).map q).sum)
          (q a) (key a) ((t.map key).dedup) (List.nodup_dedup _) (List.mem_dedup.mpr hmem),
        ih]
      simp only [List.map_cons, List.sum_cons]
      omega
    · rw [List.map_cons, List.dedup_cons_of_not_mem hmem, List.map_cons, List.sum_cons]
      have hnil : t.filter (fun r => key r == key a) = [] :=
        List.filter_eq_nil_iff.mpr (fun r hr hb =>
          hmem (List.mem_map.mpr ⟨r, hr, beq_iff_eq.mp hb⟩))
      have hhead : (((a :: t).filter (fun r => key r == key a)).map q).sum = q a := by
        simp [List.filter_cons, hnil]
      have htail : ((t.map key).dedup).map
            (fun k => (((a :: t).filter (fun r => key r == k)).map q).sum)
          = ((t.map key).dedup).map
            (fun k => ((t.filter (fun r => key r == k)).map q).sum) :=
        List.map_congr_left (fun k hk => by
          have hkmem : k ∈ t.map key := List.mem_dedup.mp hk
          have hne : (key a == k) = false :=
            beq_eq_false_iff_ne.mpr (fun h => hmem (h ▸ hkmem))
          rw [hsplit k, hne]
          simp)
      rw [hhead, htail, ih]
      simp only [List.map_cons, List.sum_cons]

theorem sum_over_dedup_fibers_filter {α κ : Type} [DecidableEq κ] [BEq κ] [LawfulBEq κ]
    (key : α → κ) (q : α → Int) (P : κ → Bool) (l : List α) :
    ((((l.map key).dedup).filter P).map
        (fun k => ((l.filter (fun r => key r == k)).map q).sum)).sum
      = ((l.filter (fun r => P (key r))).map q).sum := by
  have h1 := sum_over_dedup_fibers key (fun r => if P (key r) then q r else 0) l
  have h2 : ∀ k, ((l.filter (fun r => key r == k)).map
        (fun r => if P (key r) then q r else 0)).sum
      = if P k then ((l.filter (fun r => key r == k)).map q).sum else 0 := by
    intro k
    cases hP : P k with
    | true =>
      have hc : ∀ r ∈ l.filter (fun r => key r == k),
          (if P (key r) then q r else 0) = q r := by
        intro r hr
        have hk : key r = k := beq_iff_eq.mp (List.mem_filter.mp hr).2
        rw [hk, hP]
        simp
      rw [List.map_congr_left hc]
      simp [hP]
    | false =>
      have hc : ∀ r ∈ l.filter (fun r => key r == k),
          (if P (key r) then q r else 0) = 0 := by
        intro r hr
        have hk : key r = k := beq_iff_eq.mp (List.mem_filter.mp hr).2
        rw [hk, hP]
        simp
      rw [List.map_congr_left hc]
      simp [hP]
  have h3 : ((l.map key).dedup).map
        (fun k => ((l.filter (fun r => key r == k)).map
          (fun r => if P (key r) then q r else 0)).sum)
      = ((l.map key).dedup).map
        (fun k => if P k then ((l.filter (fun r => key r == k)).map q).sum else 0) :=
    List.map_congr_left (fun k _ => h2 k)
  have h4 := sum_map_ite_eq_sum_filter P
    (fun k => ((l.filter (fun r => key r == k)).map q).sum) ((l.map key).dedup)
  have h5 := sum_map_ite_eq_sum_filter (fun r => P (key r)) q l
  rw [← h4, ← h3, h1, h5]

theorem sum_filter_split {α : Type} (p : α → Bool) (q : α → Int) (l : List α) :
    ((l.filter p).map q).sum + ((l.filter (fun a => !p a)).map q).sum = (l.map q).sum := by
  induction l with
  | nil => rfl
  | cons a t ih =>
    cases h : p a with
    | true => simp [List.filter_cons, h]; omega
    | false => simp [List.filter_cons, h]; omega

/-! ## The grouped maps agree with plain sums over the collection -/

theorem reservedTotalsLookup_eq_activeSum (packageIds : List Nat) (now : Int)
    (rs : List Reservation) (pid : Nat) (hmem : pid ∈ packageIds) :
    reservedTotalsLookup packageIds now rs pid = activeReservedSum pid now rs := by
  unfold reservedTotalsLookup groupKeys groupQuantity
  rw [sum_over_dedup_fibers_filter reservationKey (fun r => r.quantity)
    (fun k => k.1 == pid) (matchedActive packageIds now rs)]
  unfold matchedActive activeReservedSum
  rw [List.filter_filter]
  apply congrArg
  apply congrArg
  apply List.filter_congr
  intro r _
  rw [Bool.eq_iff_iff]
  simp only [Bool.and_eq_true, decide_eq_true_eq, beq_iff_eq, reservationKey]
  have himp : r.package = pid → r.package ∈ packageIds := fun h => by
    rw [h]
    exact hmem
  tauto

theorem reservedByCustomerLookup_eq_activeSum (packageIds : List Nat) (now : Int)
    (rs : List Reservation) (pid cid : Nat) (hmem : pid ∈ packageIds) :
    reservedByCustomerLookup packageIds now rs pid cid
      = ((rs.filter (fun r => (decide (r.package = pid) && decide (now < r.expiresAt))
          && decide (r.customer = cid))).map (fun r => r.quantity)).sum := by
  unfold reservedByCustomerLookup groupQuantity matchedActive
  rw [List.filter_filter]
  apply congrArg
  apply congrArg
  apply List.filter_congr
  intro r _
  rw [Bool.eq_iff_iff]
  simp only [Bool.and_eq_true, decide_eq_true_eq, beq_iff_eq, reservationKey,
    Prod.mk.injEq]
  have himp : r.package = pid → r.package ∈ packageIds := fun h => by
    rw [h]
    exact hmem
  tauto

/-! ## Claim C2: availability returned by the package read endpoints -/

/-- C2: for every package, the availableStock value computed by
withAvailability from the reservation maps equals max 0 of stock minus the
sum of the quantities of every reservation of that package whose expiresAt is
strictly later than now, across all customers.  The package id is among the
ids the maps were built for, as holds at every call site of the read
endpoints. -/
theorem availableStock_eq_spec (p : Package) (packageIds : List Nat) (now : Int)
    (rs : List Reservation) (hmem : p.id ∈ packageIds) :
    availableStock p packageIds now rs = max 0 (p.stock - activeReservedSum p.id now rs) := by
  unfold availableStock
  rw [reservedTotalsLookup_eq_activeSum packageIds now rs p.id hmem]

/-- Witness for C2: package 7 with stock 5 and two active foreign holds of
total quantity 3 at time 0. -/
theorem availableStock_eq_spec_witness :
    ((7 : Nat) ∈ [(7 : Nat)])
    ∧ availableStock ⟨7, 1, 5, 5, true⟩ [7] 0 [⟨7, 2, 2, 100⟩, ⟨7, 3, 1, 100⟩]
        = max 0 ((5 : Int) - activeReservedSum 7 0 [⟨7, 2, 2, 100⟩, ⟨7, 3, 1, 100⟩]) :=
  ⟨by decide,
    availableStock_eq_spec ⟨7, 1, 5, 5, true⟩ [7] 0 [⟨7, 2, 2, 100⟩, ⟨7, 3, 1, 100⟩]
      (by decide)⟩

/-! ## The reserve route (packageRoutes.js lines 133 to 202) -/

/-- Outcome of PUT /:id/reserve as seen by the caller. -/
inductive ReserveResult
  | forbidden
  | badQuantity
  | notFound
  | notAvailable
  | insufficient (available : Int)
  | ok (availableStockAfter : Int)
deriving Repr, DecidableEq

/-- Reservation.findOneAndUpdate with upsert: overwrite the quantity and the
expiry of the (package, customer) hold when one exists, insert it otherwise.
Under the unique compound index there is at most one matching document, so
updating every match coincides with updating the single one. -/
def upsertReservation (rs : List Reservation) (pid cid : Nat) (q : Int)
    (expiresAt : Int) : List Reservation :=
  if rs.any (fun r => decide (r.package = pid) && decide (r.customer = cid)) then
    rs.map (fun r => if decide (r.package = pid) && decide (r.customer = cid) then
      { r with quantity := q, expiresAt := expiresAt } else r)
  else rs ++ [⟨pid, cid, q, expiresAt⟩]

/-- Reservation.findOneAndDelete: remove the (package, customer) hold.  Under
the unique compound index at most one document matches. -/
def deleteReservation (rs : List Reservation) (pid cid : Nat) : List Reservation :=
  rs.filter (fun r => !(decide (r.package = pid) && decide (r.customer = cid)))

/-- RESERVATION_WINDOW_MINUTES (packageRoutes.js line 13). -/
def RESERVATION_WINDOW_MINUTES : Int := 10

/-- PUT /:id/reserve (packageRoutes.js lines 133 to 202).  The handler runs
after authentication; isCustomer is the role of the requester.  The returned
pair is the response and the reservation collection afterwards. -/
def reserveRoute (packages : List Package) (rs : List Reservation)
    (isCustomer : Bool) (cid : Nat) (pid : Nat) (quantity : Int) (now : Int) :
    ReserveResult × List Reservation :=
  if !isCustomer then (.forbidden, rs)
  else if decide (quantity < 0) then (.badQuantity, rs)
  else
    match packages.find? (fun p => decide (p.id = pid)) with
    | none => (.notFound, rs)
    | some pack =>
      if !pack.isAvailable then (.notAvailable, rs)
      else
        let reservedByUser := reservedByCustomerLookup [pack.id] now rs pack.id cid
        let reservedByOthers := reservedTotalsLookup [pack.id] now rs pack.id - reservedByUser
        let baseStock := pack.stock
        if decide (0 < quantity) then
          let available := baseStock - reservedByOthers
          if decide (available < quantity) then (.insufficient available, rs)
          else
            let expiresAt := now + RESERVATION_WINDOW_MINUTES * 60 * 1000
            let rs2 := upsertReservation rs pack.id cid quantity expiresAt
            (.ok (max 0 (baseStock - reservedTotalsLookup [pack.id] now rs2 pack.id)), rs2)
        else
          let rs2 := deleteReservation rs pack.id cid
          (.ok (max 0 (baseStock - reservedTotalsLookup [pack.id] now rs2 pack.id)), rs2)

/-! ## Claim C6: a customer never counts against their own availability -/

/-- C6: the availability the reserve route computes subtracts only the active
holds of other customers.  The quantity reservedByOthers used by the handler
equals the plain sum of the active holds of customers other than cid, so the
holds of cid never reduce the availability computed for cid; moreover the
route rejects with insufficient stock exactly when stock minus the holds of
others is below the requested quantity. -/
theorem reserve_counts_only_other_customers
    (packages : List Package) (rs : List Reservation) (cid pid : Nat)
    (quantity : Int) (now : Int) (pack : Package)
    (hfind : packages.find? (fun p => decide (p.id = pid)) = some pack)
    (havail : pack.isAvailable = true) (hq : 0 < quantity) :
    reservedTotalsLookup [pack.id] now rs pack.id
        - reservedByCustomerLookup [pack.id] now rs pack.id cid
      = otherCustomersActiveSum pack.id cid now rs
    ∧ (((reserveRoute packages rs true cid pid quantity now).1
          = .insufficient (pack.stock - otherCustomersActiveSum pack.id cid now rs))
        ↔ pack.stock - otherCustomersActiveSum pack.id cid now rs < quantity) := by
  have hsplit := sum_filter_split (fun r => decide (r.customer = cid)) (fun r => r.quantity)
    (rs.filter (fun r => decide (r.package = pack.id) && decide (now < r.expiresAt)))
  rw [List.filter_filter, List.filter_filter] at hsplit
  have htot := reservedTotalsLookup_eq_activeSum [pack.id] now rs pack.id (by simp)
  have hcust := reservedByCustomerLookup_eq_activeSum [pack.id] now rs pack.id cid (by simp)
  have hcore : reservedTotalsLookup [pack.id] now rs pack.id
      - reservedByCustomerLookup [pack.id] now rs pack.id cid
      = otherCustomersActiveSum pack.id cid now rs := by
    rw [htot, hcust]
    unfold activeReservedSum otherCustomersActiveSum
    have hperm : (rs.filter (fun r => decide (r.package = pack.id)
          && decide (now < r.expiresAt) && !(decide (r.customer = cid)))).map
          (fun r => r.quantity)
        = (rs.filter (fun r => !(decide (r.customer = cid))
            && (decide (r.package = pack.id) && decide (now < r.expiresAt)))).map
          (fun r => r.quantity) := by
      apply congrArg
      apply List.filter_congr
      intro r _
      cases decide (r.package = pack.id) <;> cases decide (now < r.expiresAt)
        <;> cases decide (r.customer = cid) <;> rfl
    have hown : (rs.filter (fun r => (decide (r.package = pack.id)
          && decide (now < r.expiresAt)) && decide (r.customer = cid))).map
          (fun r => r.quantity)
        = (rs.filter (fun r => decide (r.customer = cid)
            && (decide (r.package = pack.id) && decide (now < r.expiresAt)))).map
          (fun r => r.quantity) := by
      apply congrArg
      apply List.filter_congr
      intro r _
      cases decide (r.package = pack.id) <;> cases decide (now < r.expiresAt)
        <;> cases decide (r.customer = cid) <;> rfl
    rw [hperm, hown]
    omega
  refine ⟨hcore, ?_⟩
  have hnneg : ¬ quantity < 0 := by omega
  unfold reserveRoute
  rw [hfind]
  simp only [Bool.not_true, Bool.false_eq_true, if_false, havail, decide_eq_true hq,
    decide_eq_false hnneg, if_true]
  rw [show pack.stock - (reservedTotalsLookup [pack.id] now rs pack.id
      - reservedByCustomerLookup [pack.id] now rs pack.id cid)
      = pack.stock - otherCustomersActiveSum pack.id cid now rs by rw [hcore]]
  by_cases hlt : pack.stock - otherCustomersActiveSum pack.id cid now rs < quantity
  · simp [hlt]
  · simp [hlt]

/-- Witness for C6: package 7 with stock 10; the requester holds 4 units and
another customer holds 3; a request for 6 passes the check because only the
foreign 3 count. -/
theorem reserve_counts_only_other_customers_witness :
    ([⟨7, 3, 5, 10, true⟩] : List Package).find? (fun p => decide (p.id = 7))
        = some ⟨7, 3, 5, 10, true⟩
    ∧ (reservedTotalsLookup [7] 0 [⟨7, 2, 4, 100⟩, ⟨7, 9, 3, 100⟩] 7
          - reservedByCustomerLookup [7] 0 [⟨7, 2, 4, 100⟩, ⟨7, 9, 3, 100⟩] 7 2
        = otherCustomersActiveSum 7 2 0 [⟨7, 2, 4, 100⟩, ⟨7, 9, 3, 100⟩]
      ∧ (((reserveRoute [⟨7, 3, 5, 10, true⟩] [⟨7, 2, 4, 100⟩, ⟨7, 9, 3, 100⟩] true 2 7 6 0).1
            = .insufficient ((10 : Int)
                - otherCustomersActiveSum 7 2 0 [⟨7, 2, 4, 100⟩, ⟨7, 9, 3, 100⟩]))
          ↔ (10 : Int) - otherCustomersActiveSum 7 2 0 [⟨7, 2, 4, 100⟩, ⟨7, 9, 3, 100⟩] < 6)) :=
  ⟨rfl,
    reserve_counts_only_other_customers [⟨7, 3, 5, 10, true⟩]
      [⟨7, 2, 4, 100⟩, ⟨7, 9, 3, 100⟩] 2 7 6 0 ⟨7, 3, 5, 10, true⟩ rfl rfl (by decide)⟩

/-! ## Pickup codes (modelled) and the Order document -/

/-- Modelled from the spec: src/utils/rotatingCode.js is imported by the order
routes and the rotation services but is not part of the repository snapshot.
Per spec section 4.1, generateHashedCode returns a 6 digit plaintext together
with a salted one way hash of it, and isValidCode is true iff the candidate
hashes to the stored secret, i.e. extensionally (for an ideal collision free
salted hash) iff the candidate equals the plaintext the hash was produced
from.  The stored secret is modelled as a sealed wrapper that determines
that plaintext. -/
structure HashedCode where
  plain : String
deriving Repr, DecidableEq

/-- Modelled from the spec: generateHashedCode of src/utils/rotatingCode.js.
The randomly drawn plaintext is threaded in as the argument. -/
def generateHashedCode (freshPlain : String) : String × HashedCode :=
  (freshPlain, ⟨freshPlain⟩)

/-- Modelled from the spec: isValidCode of src/utils/rotatingCode.js. -/
def isValidCode (candidate : String) (stored : HashedCode) : Bool :=
  candidate == stored.plain

/-- Order status enumeration (src/src/models/Order.js). -/
inductive OrderStatus
  | pending
  | confirmed
  | ready
  | picked
  | completed
  | cancelled
deriving Repr, DecidableEq

/-- Statuses scanned by POST /verify-pin (orderRoutes.js line 399). -/
def OrderStatus.isRedeemable : OrderStatus → Bool
  | .confirmed => true
  | .ready => true
  | _ => false

/-- Statuses scanned by the rotation services (status in pending, confirmed). -/
def OrderStatus.isRotationTarget : OrderStatus → Bool
  | .pending => true
  | .confirmed => true
  | _ => false

theorem isRedeemable_iff (s : OrderStatus) :
    s.isRedeemable = true ↔ s = .confirmed ∨ s = .ready := by
  cases s <;> simp [OrderStatus.isRedeemable]

/-- A line item of an order: a package or food reference plus a quantity. -/
structure OrderItem where
  package : Option Nat
  food : Option Nat
  quantity : Int
deriving Repr, DecidableEq

/-- A document of the Order collection (src/src/models/Order.js, the schema
variant the routes use: optional code fields, plaintext cache, ready status).
createdAt is the creation timestamp. -/
structure Order where
  id : Nat
  customer : Nat
  company : Nat
  items : List OrderItem
  totalAmount : ℚ
  pickupCodeHash : Option HashedCode
  pickupCodePlain : Option String
  codeGeneratedAt : Option Int
  status : OrderStatus
  createdAt : Int
deriving Repr, DecidableEq

/-- The 20000 ms validity window used by the code endpoints (orderRoutes.js
lines 344, 348, 365, 414). -/
def CODE_VALIDITY_MS : Int := 20000

/-- The expiry test Date.now() minus codeGeneratedAt strictly above the
window. -/
def codeExpiredAt (now genAt : Int) : Bool :=
  decide (CODE_VALIDITY_MS < now - genAt)

/-- Writing a freshly generated code onto an order: hash, plaintext cache and
generation time, exactly the three fields set by GET /:id/code and by the
part_005 rotation variant. -/
def rotateOrderCode (o : Order) (freshPlain : String) (now : Int) : Order :=
  { o with
    pickupCodeHash := some (generateHashedCode freshPlain).2
    pickupCodePlain := some (generateHashedCode freshPlain).1
    codeGeneratedAt := some now }

/-! ## POST /verify-pin (orderRoutes.js lines 382 to 469) -/

/-- The PIN format guard (exactly 6 digits). -/
def isSixDigitCode (code : String) : Bool :=
  code.length == 6 && code.toList.all (fun c => c.isDigit)

/-- The body of the scan loop for one order: skip when the code fields are
missing or the code is expired, then test the hash and fall back to plaintext
equality. -/
def orderAccepts (o : Order) (code : String) (now : Int) : Bool :=
  match o.pickupCodeHash, o.codeGeneratedAt with
  | some h, some genAt =>
    if codeExpiredAt now genAt then false
    else if isValidCode code h then true
    else
      match o.pickupCodePlain with
      | some p => p == code
      | none => false
  | _, _ => false

/-- The scan set: the open orders of the company with a redeemable status. -/
def scanSet (orders : List Order) (companyId : Nat) : List Order :=
  orders.filter (fun o => decide (o.company = companyId) && o.status.isRedeemable)

/-- foundOrder.save() after setting the status: update the document with the
given id. -/
def setOrderStatus (orders : List Order) (oid : Nat) (st : OrderStatus) : List Order :=
  orders.map (fun o => if o.id = oid then { o with status := st } else o)

/-- POST /verify-pin: on success, the id of the matched order and the order
collection afterwards; none models every failure response. -/
def verifyPin (orders : List Order) (companyId : Nat) (code : String) (now : Int) :
    Option (Nat × List Order) :=
  if !isSixDigitCode code then none
  else
    match (scanSet orders companyId).find? (fun o => orderAccepts o code now) with
    | some o => some (o.id, setOrderStatus orders o.id .picked)
    | none => none

/-! ## GET /:id/code (orderRoutes.js lines 315 to 377) -/

/-- The JSON payload of GET /:id/code.  pickupCode mirrors the JS field and
may be absent when the cached plaintext is missing. -/
structure CodeResponse where
  pickupCode : Option String
  codeGeneratedAt : Int
  expiresIn : Int
deriving Repr, DecidableEq

/-- GET /:id/code: wrong role or a foreign order yields none (403); when the
order has no code hash or no generation time, or the code is expired, a fresh
code is generated and persisted and returned with the full window; otherwise
the cached plaintext and the remaining validity are returned and the order is
left untouched.  The randomly drawn plaintext is the fresh argument. -/
def getPickupCode (o : Order) (requesterIsCustomer : Bool) (requesterId : Nat)
    (fresh : String) (now : Int) : Option (Order × CodeResponse) :=
  if !requesterIsCustomer || !(decide (o.customer = requesterId)) then none
  else
    match o.pickupCodeHash, o.codeGeneratedAt with
    | some _, some genAt =>
      if codeExpiredAt now genAt then
        some (rotateOrderCode o fresh now, ⟨some fresh, now, CODE_VALIDITY_MS⟩)
      else
        some (o, ⟨o.pickupCodePlain, genAt, max 0 (CODE_VALIDITY_MS - (now - genAt))⟩)
    | _, _ =>
      some (rotateOrderCode o fresh now, ⟨some fresh, now, CODE_VALIDITY_MS⟩)

/-! ## The two code rotation schedulers -/

/-- One order of a tick of src/src/services/codeRotationService.js: every
fetched order receives a fresh hash and generation time, unconditionally;
this named service does not write the plaintext cache. -/
def rotationNamedTickOne (o : Order) (fresh : String) (now : Int) : Order :=
  { o with
    pickupCodeHash := some (generateHashedCode fresh).2
    codeGeneratedAt := some now }

/-- A tick of the named rotation service over the order collection: the query
selects the orders with status pending or confirmed and each of them is
rewritten.  freshFor supplies the plaintext drawn for each order. -/
def rotationNamedTick (orders : List Order) (freshFor : Nat → String) (now : Int) :
    List Order :=
  orders.map (fun o =>
    if o.status.isRotationTarget then rotationNamedTickOne o (freshFor o.id) now else o)

/-- The hasExpiredCode test of the rotation variant in src/unnamed/part_005:
a generation time exists and the elapsed time exceeds the window. -/
def hasExpiredCode (o : Order) (now : Int) : Bool :=
  match o.codeGeneratedAt with
  | some g => decide (CODE_VALIDITY_MS < now - g)
  | none => false

/-- One order of a tick of the rotation variant in src/unnamed/part_005: a
fresh code (hash, plaintext cache, generation time) is written only when no
hash exists or the current code is expired; otherwise the order is returned
unchanged. -/
def rotationVariantTickOne (o : Order) (fresh : String) (now : Int) : Order :=
  if o.pickupCodeHash.isNone || hasExpiredCode o now then rotateOrderCode o fresh now else o

/-- A tick of the rotation variant over the order collection. -/
def rotationVariantTick (orders : List Order) (freshFor : Nat → String) (now : Int) :
    List Order :=
  orders.map (fun o =>
    if o.status.isRotationTarget then rotationVariantTickOne o (freshFor o.id) now else o)

/-! ## POST / create order (orderRoutes.js lines 12 to 40) -/

/-- The request body of POST /api/orders.  company and items are absent when
the JS value is missing (undefined or null); a JS number is falsy exactly
when it is 0, which the missing field guard tests via the bang operator. -/
structure OrderRequest where
  company : Option Nat
  items : Option (List OrderItem)
  totalAmount : ℚ
deriving Repr, DecidableEq

/-- Outcome of POST /api/orders. -/
inductive CreateOrderResult
  | forbidden
  | missingFields
  | validationError
  | created (o : Order)
deriving Repr, DecidableEq

/-- Mongoose validation run by Order.create: the schema requires quantity of
at least 1 on each item and the pre save hook requires a package or food
reference on each item.  An empty item list passes both vacuously. -/
def orderItemsValid (items : List OrderItem) : Bool :=
  items.all (fun it => (it.package.isSome || it.food.isSome) && decide (1 ≤ it.quantity))

/-- POST /api/orders: reject a non customer; reject when company or items is
missing or totalAmount is falsy; otherwise create the order with status
confirmed, the client supplied items and totalAmount, and no pickup code.
Note the empty list is a truthy JS value, so items equal to the empty list
passes the missing field guard. -/
def createOrder (isCustomer : Bool) (customerId : Nat) (req : OrderRequest)
    (newId : Nat) (now : Int) : CreateOrderResult :=
  if !isCustomer then .forbidden
  else if req.company.isNone || req.items.isNone || decide (req.totalAmount = 0) then
    .missingFields
  else if !orderItemsValid (req.items.getD []) then .validationError
  else .created {
      id := newId
      customer := customerId
      company := req.company.getD 0
      items := req.items.getD []
      totalAmount := req.totalAmount
      pickupCodeHash := none
      pickupCodePlain := none
      codeGeneratedAt := none
      status := .confirmed
      createdAt := now }

/-- The persistent state the order routes touch. -/
structure DB where
  packages : List Package
  orders : List Order
  reservations : List Reservation
deriving Repr, DecidableEq

/-- POST /api/orders at the level of the store: the only write the handler
performs is Order.create; packages and reservations are never read or
written. -/
def postOrderRoute (db : DB) (isCustomer : Bool) (customerId : Nat)
    (req : OrderRequest) (newId : Nat) (now : Int) : DB × CreateOrderResult :=
  match createOrder isCustomer customerId req newId now with
  | .created o => ({ db with orders := db.orders ++ [o] }, .created o)
  | r => (db, r)

/-- Rounding to 2 decimal places, written from the words of the spec for the
comparison side of claim C7. -/
def round2 (q : ℚ) : ℚ :=
  (round (q * 100) : ℚ) / 100

/-- The total the spec says the commit computes (spec section 4.4 step 5),
written from the words of the spec for the comparison side of claim C7: the
sum of unitPrice times quantity over the items, rounded to 2 decimal places.
The unit price of a package item is the price of the referenced package. -/
def specOrderTotal (packages : List Package) (items : List OrderItem) : ℚ :=
  round2 ((items.map (fun it =>
    (match it.package.bind (fun pid => packages.find? (fun p => decide (p.id = pid))) with
     | some p => p.price
     | none => 0) * (it.quantity : ℚ))).sum)

/-! ## POST /:id/feedback (orderRoutes.js lines 231 to 282) -/

/-- A document of the Rating collection (src/src/models/Rating.js, the order
based variant the route uses). -/
structure RatingDoc where
  order : Nat
  customer : Nat
  company : Option Nat
  rating : Int
  comment : Option String
  companyReply : String
deriving Repr, DecidableEq

/-- Outcome of POST /:id/feedback. -/
inductive FeedbackResult
  | forbidden
  | badRating
  | notFound
  | notYourOrder
  | notPicked
  | windowExpired
  | alreadyRated
  | created
deriving Repr, DecidableEq

/-- The one week grace window of the feedback route, in milliseconds. -/
def WEEK_MS : Int := 7 * 24 * 60 * 60 * 1000

/-- Order.findById. -/
def findOrder (orders : List Order) (oid : Nat) : Option Order :=
  orders.find? (fun o => decide (o.id = oid))

/-- POST /:id/feedback: role gate; the rating must be truthy and within 1 to
5; the order must exist, belong to the requester, be picked, and be created
no more than one week ago; at most one rating per (order, customer); on
success the rating document is created and the order becomes completed. -/
def postFeedback (orders : List Order) (ratings : List RatingDoc) (isCustomer : Bool)
    (cid oid : Nat) (r : Int) (comment : Option String) (now : Int) :
    FeedbackResult × List Order × List RatingDoc :=
  if !isCustomer then (.forbidden, orders, ratings)
  else if decide (r = 0) || decide (r < 1) || decide (5 < r) then (.badRating, orders, ratings)
  else
    match findOrder orders oid with
    | none => (.notFound, orders, ratings)
    | some o =>
      if !(decide (o.customer = cid)) then (.notYourOrder, orders, ratings)
      else if !(decide (o.status = .picked)) then (.notPicked, orders, ratings)
      else if decide (o.createdAt < now - WEEK_MS) then (.windowExpired, orders, ratings)
      else if ratings.any (fun rt => decide (rt.order = o.id) && decide (rt.customer = cid))
      then (.alreadyRated, orders, ratings)
      else
        (.created, setOrderStatus orders o.id .completed,
          ratings ++ [{ order := o.id, customer := cid, company := some o.company,
                        rating := r, comment := comment, companyReply := "" }])

/-! ## Claim C4: redemption is single use -/

/-- C4: a successful POST /verify-pin matched an order of the company whose
status was confirmed or ready; afterwards that order is picked, it is
excluded from the scan set, and a second attempt with the same code fails,
provided the code matches no other order of the store (the per seller
collision rarity assumption of the spec). -/
theorem verifyPin_single_use
    (orders : List Order) (companyId : Nat) (code : String) (now now2 : Int)
    (oid : Nat) (orders2 : List Order)
    (hrun : verifyPin orders companyId code now = some (oid, orders2))
    (hunique : ∀ x ∈ orders, x.id ≠ oid → orderAccepts x code now2 = false) :
    (∃ o ∈ orders, o.id = oid ∧ (o.status = .confirmed ∨ o.status = .ready))
    ∧ (∃ o ∈ orders2, o.id = oid ∧ o.status = .picked)
    ∧ (∀ x ∈ scanSet orders2 companyId, x.id ≠ oid)
    ∧ verifyPin orders2 companyId code now2 = none := by
  unfold verifyPin at hrun
  cases hfmt : isSixDigitCode code with
  | false => rw [hfmt] at hrun; simp at hrun
  | true =>
    rw [hfmt] at hrun
    simp only [Bool.not_true, Bool.false_eq_true, if_false] at hrun
    cases hfind : (scanSet orders companyId).find? (fun o => orderAccepts o code now) with
    | none => rw [hfind] at hrun; cases hrun
    | some o =>
      rw [hfind] at hrun
      have hp := Option.some.inj hrun
      have hid : o.id = oid := congrArg Prod.fst hp
      have hset : setOrderStatus orders o.id .picked = orders2 := congrArg Prod.snd hp
      have hmemscan : o ∈ scanSet orders companyId := List.mem_of_find?_eq_some hfind
      have hmem0 : o ∈ orders := by
        unfold scanSet at hmemscan
        exact (List.mem_filter.mp hmemscan).1
      have hred : o.status.isRedeemable = true := by
        unfold scanSet at hmemscan
        exact (Bool.and_eq_true_iff.mp (List.mem_filter.mp hmemscan).2).2
      have hscan2 : ∀ x ∈ scanSet orders2 companyId, x ∈ orders ∧ x.id ≠ oid := by
        intro x hx
        unfold scanSet at hx
        obtain ⟨hx2, hxb⟩ := List.mem_filter.mp hx
        have hxred : x.status.isRedeemable = true := (Bool.and_eq_true_iff.mp hxb).2
        rw [← hset] at hx2
        unfold setOrderStatus at hx2
        obtain ⟨y, hy, hyx⟩ := List.mem_map.mp hx2
        by_cases hyid : y.id = o.id
        · rw [if_pos hyid] at hyx
          rw [← hyx] at hxred
          simp [OrderStatus.isRedeemable] at hxred
        · rw [if_neg hyid] at hyx
          subst hyx
          exact ⟨hy, fun hxe => hyid (hxe.trans hid.symm)⟩
      refine ⟨⟨o, hmem0, hid, (isRedeemable_iff o.status).mp hred⟩, ?_, ?_, ?_⟩
      · refine ⟨{ o with status := .picked }, ?_, hid, rfl⟩
        rw [← hset]
        unfold setOrderStatus
        exact List.mem_map.mpr ⟨o, hmem0, by rw [if_pos rfl]⟩
      · exact fun x hx => (hscan2 x hx).2
      · have hnone : (scanSet orders2 companyId).find?
            (fun x => orderAccepts x code now2) = none := by
          rw [List.find?_eq_none]
          intro x hx
          have hfalse := hunique x (hscan2 x hx).1 (hscan2 x hx).2
          simp [hfalse]
        unfold verifyPin
        rw [hfmt, hnone]
        rfl

/-- Witness for C4: a single confirmed order with a live code is redeemed at
t = 1000 and the second attempt at t = 2000 fails. -/
theorem verifyPin_single_use_witness :
    (∃ o ∈ [(⟨1, 2, 3, [], 10, some ⟨"123456"⟩, some "123456", some 0, .confirmed, 0⟩ : Order)],
        o.id = 1 ∧ (o.status = .confirmed ∨ o.status = .ready))
    ∧ (∃ o ∈ setOrderStatus
          [(⟨1, 2, 3, [], 10, some ⟨"123456"⟩, some "123456", some 0, .confirmed, 0⟩ : Order)]
          1 .picked, o.id = 1 ∧ o.status = .picked)
    ∧ (∀ x ∈ scanSet (setOrderStatus
          [(⟨1, 2, 3, [], 10, some ⟨"123456"⟩, some "123456", some 0, .confirmed, 0⟩ : Order)]
          1 .picked) 3, x.id ≠ 1)
    ∧ verifyPin (setOrderStatus
          [(⟨1, 2, 3, [], 10, some ⟨"123456"⟩, some "123456", some 0, .confirmed, 0⟩ : Order)]
          1 .picked) 3 "123456" 2000 = none :=
  verifyPin_single_use
    [(⟨1, 2, 3, [], 10, some ⟨"123456"⟩, some "123456", some 0, .confirmed, 0⟩ : Order)]
    3 "123456" 1000 2000 1
    (setOrderStatus
      [(⟨1, 2, 3, [], 10, some ⟨"123456"⟩, some "123456", some 0, .confirmed, 0⟩ : Order)]
      1 .picked)
    rfl (by decide)

/-! ## Claim C5: expired codes never verify; a fresh rotation verifies until
its own window elapses -/

/-- C5: once the validity window of the code of an order has elapsed, the
scan loop never accepts any candidate against that order (in particular not
the cached plaintext itself) and the order can never be the one found by the
scan; after a rotation at rotAt, the new plaintext is accepted exactly as
long as at most 20000 ms have passed since rotAt. -/
theorem expired_code_never_verifies
    (o : Order) (genAt : Int) (candidate : String) (now : Int)
    (hgen : o.codeGeneratedAt = some genAt)
    (hexp : CODE_VALIDITY_MS < now - genAt) :
    orderAccepts o candidate now = false
    ∧ (∀ orders companyId,
        (scanSet orders companyId).find? (fun x => orderAccepts x candidate now) ≠ some o)
    ∧ (∀ fresh rotAt now2, now2 - rotAt ≤ CODE_VALIDITY_MS →
        orderAccepts (rotateOrderCode o fresh rotAt) fresh now2 = true)
    ∧ (∀ fresh rotAt now2, CODE_VALIDITY_MS < now2 - rotAt →
        orderAccepts (rotateOrderCode o fresh rotAt) fresh now2 = false) := by
  have h1 : orderAccepts o candidate now = false := by
    unfold orderAccepts
    rw [hgen]
    cases hh : o.pickupCodeHash with
    | none => rfl
    | some h => simp [codeExpiredAt, hexp]
  refine ⟨h1, ?_, ?_, ?_⟩
  · intro orders companyId hsome
    have := List.find?_some hsome
    rw [h1] at this
    cases this
  · intro fresh rotAt now2 hle
    have hnx : codeExpiredAt now2 rotAt = false := by
      have hle2 : now2 - rotAt ≤ 20000 := hle
      unfold codeExpiredAt
      exact decide_eq_false (by show ¬ ((20000 : Int) < now2 - rotAt); omega)
    simp [orderAccepts, rotateOrderCode, generateHashedCode, isValidCode, hnx]
  · intro fresh rotAt now2 hgt
    have hnx : codeExpiredAt now2 rotAt = true := by
      unfold codeExpiredAt
      exact decide_eq_true hgt
    simp [orderAccepts, rotateOrderCode, hnx]

/-- Witness for C5: a code generated at t = 0 is refused at t = 30000 even
when presented as its own plaintext; after rotating at t = 30000 the new code
is accepted at t = 40000 and refused at t = 60001. -/
theorem expired_code_never_verifies_witness :
    orderAccepts
        (⟨1, 2, 3, [], 10, some ⟨"123456"⟩, some "123456", some 0, .confirmed, 0⟩ : Order)
        "123456" 30000 = false
    ∧ orderAccepts (rotateOrderCode
        (⟨1, 2, 3, [], 10, some ⟨"123456"⟩, some "123456", some 0, .confirmed, 0⟩ : Order)
        "654321" 30000) "654321" 40000 = true
    ∧ orderAccepts (rotateOrderCode
        (⟨1, 2, 3, [], 10, some ⟨"123456"⟩, some "123456", some 0, .confirmed, 0⟩ : Order)
        "654321" 30000) "654321" 60001 = false :=
  ⟨(expired_code_never_verifies
      (⟨1, 2, 3, [], 10, some ⟨"123456"⟩, some "123456", some 0, .confirmed, 0⟩ : Order)
      0 "123456" 30000 rfl (by decide)).1,
   (expired_code_never_verifies
      (⟨1, 2, 3, [], 10, some ⟨"123456"⟩, some "123456", some 0, .confirmed, 0⟩ : Order)
      0 "123456" 30000 rfl (by decide)).2.2.1 "654321" 30000 40000 (by decide),
   (expired_code_never_verifies
      (⟨1, 2, 3, [], 10, some ⟨"123456"⟩, some "123456", some 0, .confirmed, 0⟩ : Order)
      0 "123456" 30000 rfl (by decide)).2.2.2 "654321" 30000 60001 (by decide)⟩

/-! ## Claim C10: GET /:id/code -/

/-- C10: for the owning customer, the endpoint generates, persists and
returns a fresh code with the full 20 second window when the order has no
code hash or no generation time or the code is expired; otherwise it returns
the cached plaintext and the remaining validity and leaves the order
untouched. -/
theorem getPickupCode_behavior
    (o : Order) (requesterId : Nat) (fresh : String) (now : Int)
    (hown : o.customer = requesterId) :
    ((o.pickupCodeHash = none ∨ o.codeGeneratedAt = none
        ∨ (∃ g, o.codeGeneratedAt = some g ∧ CODE_VALIDITY_MS < now - g)) →
      getPickupCode o true requesterId fresh now
        = some (rotateOrderCode o fresh now, ⟨some fresh, now, CODE_VALIDITY_MS⟩)
      ∧ (rotateOrderCode o fresh now).pickupCodeHash = some ⟨fresh⟩
      ∧ (rotateOrderCode o fresh now).pickupCodePlain = some fresh
      ∧ (rotateOrderCode o fresh now).codeGeneratedAt = some now)
    ∧ (∀ h g, o.pickupCodeHash = some h → o.codeGeneratedAt = some g →
        now - g ≤ CODE_VALIDITY_MS →
        getPickupCode o true requesterId fresh now
          = some (o, ⟨o.pickupCodePlain, g, CODE_VALIDITY_MS - (now - g)⟩)) := by
  constructor
  · intro hcase
    refine ⟨?_, rfl, rfl, rfl⟩
    unfold getPickupCode
    cases hh : o.pickupCodeHash with
    | none =>
      cases hg2 : o.codeGeneratedAt with
      | none => simp [hown]
      | some g => simp [hown]
    | some h =>
      cases hg2 : o.codeGeneratedAt with
      | none => simp [hown]
      | some g =>
        rcases hcase with h1 | h2 | ⟨g2, hg3, hexp⟩
        · rw [hh] at h1; cases h1
        · rw [hg2] at h2; cases h2
        · rw [hg2] at hg3
          have hgg : g2 = g := (Option.some.inj hg3).symm
          subst hgg
          simp [hown, codeExpiredAt, hexp]
  · intro h g hh hg2 hle
    unfold getPickupCode
    rw [hh, hg2]
    have hle2 : now - g ≤ 20000 := hle
    have hexpf : codeExpiredAt now g = false := by
      unfold codeExpiredAt
      exact decide_eq_false (by show ¬ ((20000 : Int) < now - g); omega)
    have hmax : max 0 (CODE_VALIDITY_MS - (now - g)) = CODE_VALIDITY_MS - (now - g) := by
      show max 0 ((20000 : Int) - (now - g)) = (20000 : Int) - (now - g)
      omega
    simp [hown, hexpf, hmax]

/-- Witness for C10: the expired branch at t = 30000 and the cached branch at
t = 10000 for a code generated at t = 0. -/
theorem getPickupCode_behavior_witness :
    getPickupCode
        (⟨1, 2, 3, [], 10, some ⟨"111111"⟩, some "111111", some 0, .confirmed, 0⟩ : Order)
        true 2 "222222" 30000
      = some (rotateOrderCode
          (⟨1, 2, 3, [], 10, some ⟨"111111"⟩, some "111111", some 0, .confirmed, 0⟩ : Order)
          "222222" 30000, ⟨some "222222", 30000, CODE_VALIDITY_MS⟩)
    ∧ getPickupCode
        (⟨1, 2, 3, [], 10, some ⟨"111111"⟩, some "111111", some 0, .confirmed, 0⟩ : Order)
        true 2 "222222" 10000
      = some (⟨1, 2, 3, [], 10, some ⟨"111111"⟩, some "111111", some 0, .confirmed, 0⟩,
          ⟨some "111111", 0, CODE_VALIDITY_MS - 10000⟩) :=
  ⟨((getPickupCode_behavior
      (⟨1, 2, 3, [], 10, some ⟨"111111"⟩, some "111111", some 0, .confirmed, 0⟩ : Order)
      2 "222222" 30000 rfl).1 (Or.inr (Or.inr ⟨0, rfl, by decide⟩))).1,
   (getPickupCode_behavior
      (⟨1, 2, 3, [], 10, some ⟨"111111"⟩, some "111111", some 0, .confirmed, 0⟩ : Order)
      2 "222222" 10000 rfl).2 ⟨"111111"⟩ 0 rfl rfl (by decide)⟩

/-! ## Claim C3: the rotation schedulers -/

/-- C3 counterexample: the named service src/src/services/codeRotationService.js
rewrites the code fields of every awaiting order on every tick, even for an
order whose code is still well inside its validity window (generated at t = 0,
tick at t = 1000). -/
theorem rotationNamed_rewrites_valid_code :
    ((1000 : Int) - 0 ≤ CODE_VALIDITY_MS)
    ∧ rotationNamedTick
        [(⟨1, 2, 3, [], 10, some ⟨"111111"⟩, some "111111", some 0, .confirmed, 0⟩ : Order)]
        (fun _ => "222222") 1000
      ≠ [(⟨1, 2, 3, [], 10, some ⟨"111111"⟩, some "111111", some 0, .confirmed, 0⟩ : Order)] := by
  constructor
  · decide
  · decide

/-- C3 amended: the rotation variant of src/unnamed/part_005 rotates an
awaiting order exactly as the claim says: it leaves an order with a live code
entirely unchanged (part 1; also an order with a hash but no generation time,
part 3) and writes a fresh hash, plaintext cache and generation time when the
order has no code hash or its code is expired (part 2). -/
theorem rotationVariant_only_rotates_expired (o : Order) (fresh : String) (now : Int) :
    (∀ h g, o.pickupCodeHash = some h → o.codeGeneratedAt = some g →
        now - g ≤ CODE_VALIDITY_MS → rotationVariantTickOne o fresh now = o)
    ∧ ((o.pickupCodeHash = none
        ∨ (∃ g, o.codeGeneratedAt = some g ∧ CODE_VALIDITY_MS < now - g)) →
        (rotationVariantTickOne o fresh now).pickupCodeHash = some ⟨fresh⟩
        ∧ (rotationVariantTickOne o fresh now).pickupCodePlain = some fresh
        ∧ (rotationVariantTickOne o fresh now).codeGeneratedAt = some now)
    ∧ (∀ h, o.pickupCodeHash = some h → o.codeGeneratedAt = none →
        rotationVariantTickOne o fresh now = o) := by
  refine ⟨?_, ?_, ?_⟩
  · intro h g hh hg hle
    unfold rotationVariantTickOne
    have hnone : o.pickupCodeHash.isNone = false := by rw [hh]; rfl
    have hle2 : now - g ≤ 20000 := hle
    have hexpf : hasExpiredCode o now = false := by
      unfold hasExpiredCode
      rw [hg]
      exact decide_eq_false (by show ¬ ((20000 : Int) < now - g); omega)
    rw [hnone, hexpf]
    rfl
  · intro hcase
    unfold rotationVariantTickOne
    have hcond : (o.pickupCodeHash.isNone || hasExpiredCode o now) = true := by
      rcases hcase with h1 | ⟨g, hg, hexp⟩
      · rw [h1]
        rfl
      · have : hasExpiredCode o now = true := by
          unfold hasExpiredCode
          rw [hg]
          exact decide_eq_true hexp
        rw [this]
        simp
    rw [hcond]
    exact ⟨rfl, rfl, rfl⟩
  · intro h hh hg
    unfold rotationVariantTickOne
    have hnone : o.pickupCodeHash.isNone = false := by rw [hh]; rfl
    have hexpf : hasExpiredCode o now = false := by
      unfold hasExpiredCode
      rw [hg]
    rw [hnone, hexpf]
    rfl

/-- Witness for C3 (amended): at t = 1000 the variant leaves a live code
alone, and at t = 50000 the same order gets a fresh generation time. -/
theorem rotationVariant_only_rotates_expired_witness :
    rotationVariantTickOne
        (⟨1, 2, 3, [], 10, some ⟨"111111"⟩, some "111111", some 0, .confirmed, 0⟩ : Order)
        "222222" 1000
      = (⟨1, 2, 3, [], 10, some ⟨"111111"⟩, some "111111", some 0, .confirmed, 0⟩ : Order)
    ∧ (rotationVariantTickOne
        (⟨1, 2, 3, [], 10, some ⟨"111111"⟩, some "111111", some 0, .confirmed, 0⟩ : Order)
        "222222" 50000).codeGeneratedAt = some 50000 :=
  ⟨(rotationVariant_only_rotates_expired
      (⟨1, 2, 3, [], 10, some ⟨"111111"⟩, some "111111", some 0, .confirmed, 0⟩ : Order)
      "222222" 1000).1 ⟨"111111"⟩ 0 rfl rfl (by decide),
   ((rotationVariant_only_rotates_expired
      (⟨1, 2, 3, [], 10, some ⟨"111111"⟩, some "111111", some 0, .confirmed, 0⟩ : Order)
      "222222" 50000).2.1 (Or.inr ⟨0, rfl, by decide⟩)).2.2⟩

/-! ## Claim C1: the create order route and availability -/

/-- C1 counterexample: package 7 has stock 0 (availableStock 0), the request
asks for 5 units of it, yet POST /api/orders succeeds and creates the order;
the package list of the store is untouched.  This refutes the claim that such
a commit fails. -/
theorem createOrder_ignores_availability :
    availableStock ⟨7, 3, 5, 0, true⟩ [7] 0 [] < 5
    ∧ (∃ o, (postOrderRoute ⟨[⟨7, 3, 5, 0, true⟩], [], []⟩ true 2
          ⟨some 3, some [⟨some 7, none, 5⟩], 10⟩ 1 0).2 = .created o)
    ∧ (postOrderRoute ⟨[⟨7, 3, 5, 0, true⟩], [], []⟩ true 2
          ⟨some 3, some [⟨some 7, none, 5⟩], 10⟩ 1 0).1.packages = [⟨7, 3, 5, 0, true⟩] := by
  refine ⟨by decide, ⟨_, rfl⟩, rfl⟩

/-- C1 amended: the create order route performs no availability check and no
stock mutation at all: packages and reservations are returned unchanged on
every input, and the request is accepted exactly when the requester is a
customer, company and items are present, totalAmount is truthy, and the items
pass the per item document validation, independently of any stock or
reservation state. -/
theorem postOrder_frame_and_acceptance
    (db : DB) (isCustomer : Bool) (cid : Nat) (req : OrderRequest) (newId : Nat)
    (now : Int) :
    (postOrderRoute db isCustomer cid req newId now).1.packages = db.packages
    ∧ (postOrderRoute db isCustomer cid req newId now).1.reservations = db.reservations
    ∧ ((∃ o, (postOrderRoute db isCustomer cid req newId now).2 = .created o)
        ↔ isCustomer = true ∧ req.company.isNone = false ∧ req.items.isNone = false
          ∧ req.totalAmount ≠ 0 ∧ orderItemsValid (req.items.getD []) = true) := by
  have hchar : ∀ (res : CreateOrderResult),
      createOrder isCustomer cid req newId now = res →
      ((∃ o, res = .created o)
        ↔ isCustomer = true ∧ req.company.isNone = false ∧ req.items.isNone = false
          ∧ req.totalAmount ≠ 0 ∧ orderItemsValid (req.items.getD []) = true) := by
    intro res hres
    unfold createOrder at hres
    cases isCustomer with
    | false =>
      simp only [Bool.not_false, if_true] at hres
      subst hres
      simp
    | true =>
      simp only [Bool.not_true, Bool.false_eq_true, if_false] at hres
      by_cases h1 : req.company.isNone || req.items.isNone || decide (req.totalAmount = 0)
      · rw [if_pos h1] at hres
        subst hres
        simp only [Bool.or_eq_true, decide_eq_true_eq] at h1
        constructor
        · rintro ⟨o, ho⟩
          cases ho
        · rintro ⟨-, hc, hi, ht, -⟩
          rcases h1 with (h1 | h1) | h1
          · rw [hc] at h1; cases h1
          · rw [hi] at h1; cases h1
          · exact absurd h1 ht
      · rw [if_neg h1] at hres
        simp only [Bool.or_eq_true, decide_eq_true_eq, not_or] at h1
        obtain ⟨⟨hc, hi⟩, ht⟩ := h1
        by_cases h2 : orderItemsValid (req.items.getD [])
        · rw [if_neg (by simp [h2])] at hres
          subst hres
          exact iff_of_true ⟨_, rfl⟩
            ⟨rfl, Bool.eq_false_iff.mpr hc, Bool.eq_false_iff.mpr hi, ht, h2⟩
        · rw [if_pos (by simp [Bool.eq_false_iff.mpr h2])] at hres
          subst hres
          constructor
          · rintro ⟨o, ho⟩
            cases ho
          · rintro ⟨-, -, -, -, h2t⟩
            exact absurd h2t h2
  unfold postOrderRoute
  cases hres : createOrder isCustomer cid req newId now with
  | created o =>
    refine ⟨rfl, rfl, ?_⟩
    rw [← hchar (.created o) hres]
  | forbidden =>
    refine ⟨rfl, rfl, ?_⟩
    rw [← hchar .forbidden hres]
  | missingFields =>
    refine ⟨rfl, rfl, ?_⟩
    rw [← hchar .missingFields hres]
  | validationError =>
    refine ⟨rfl, rfl, ?_⟩
    rw [← hchar .validationError hres]

/-! ## Claim C7: the order total -/

/-- C7 counterexample: the client sends totalAmount 999 for a single item of
one unit of package 7 priced 5; the stored order carries 999, while the total
the spec prescribes is 5. -/
theorem createOrder_totalAmount_client_supplied :
    ∃ o, createOrder true 2 ⟨some 3, some [⟨some 7, none, 1⟩], 999⟩ 1 0 = .created o
      ∧ o.totalAmount = 999
      ∧ specOrderTotal [⟨7, 3, 5, 10, true⟩] o.items = 5
      ∧ o.totalAmount ≠ specOrderTotal [⟨7, 3, 5, 10, true⟩] o.items := by
  refine ⟨_, rfl, rfl, ?_, ?_⟩
  · norm_num [specOrderTotal, round2]
  · norm_num [specOrderTotal, round2]

/-- C7 amended: whenever POST /api/orders succeeds, the stored and returned
totalAmount is exactly the number the client supplied; no computation from
unit prices and quantities takes place. -/
theorem createOrder_stores_client_total (isCustomer : Bool) (cid : Nat)
    (req : OrderRequest) (newId : Nat) (now : Int) (o : Order)
    (h : createOrder isCustomer cid req newId now = .created o) :
    o.totalAmount = req.totalAmount := by
  unfold createOrder at h
  split at h
  · exact CreateOrderResult.noConfusion h
  · split at h
    · exact CreateOrderResult.noConfusion h
    · split at h
      · exact CreateOrderResult.noConfusion h
      · have := CreateOrderResult.created.inj h
        rw [← this]

/-- Witness for C7 (amended): the concrete request of the counterexample. -/
theorem createOrder_stores_client_total_witness :
    ∃ o, createOrder true 2 ⟨some 3, some [⟨some 7, none, 1⟩], 999⟩ 1 0 = .created o
      ∧ o.totalAmount = (999 : ℚ) :=
  ⟨_, rfl, createOrder_stores_client_total true 2
    ⟨some 3, some [⟨some 7, none, 1⟩], 999⟩ 1 0 _ rfl⟩

/-! ## Claim C8: empty item lists -/

/-- C8: a request whose items field is the empty list is accepted, because
the empty array is truthy in JS and the per item validation is vacuous; an
order with an empty item list is created.  This exhibits the failing input
for the claim that empty item lists are rejected. -/
theorem createOrder_accepts_empty_items :
    ∃ o, createOrder true 2 ⟨some 3, some [], 10⟩ 1 0 = .created o ∧ o.items = [] :=
  ⟨_, rfl, rfl⟩

/-! ## Claim C9: feedback -/

/-- C9 counterexample: a submission with rating value 6 on a picked order of
the requester, inside the one week window, with no prior rating, is rejected,
although none of the three conditions of the claim holds. -/
theorem feedback_rejection_beyond_listed_conditions :
    (postFeedback [⟨5, 2, 3, [], 10, none, none, none, .picked, 0⟩] [] true 2 5 6 none 1000).1
        ≠ .created
    ∧ (⟨5, 2, 3, [], 10, none, none, none, .picked, 0⟩ : Order).status = .picked
    ∧ ¬((0 : Int) < 1000 - WEEK_MS)
    ∧ ¬∃ rt ∈ ([] : List RatingDoc), rt.order = 5 ∧ rt.customer = 2 := by
  refine ⟨by decide, rfl, by decide, by simp⟩

/-- C9 amended: for a submission by the owning customer with a rating value
in 1 to 5 on an existing order, the rating is created (and the order becomes
completed and the rating document is appended) exactly when the order is
picked, was created at most one week before now, and carries no prior rating
by this customer; otherwise the submission is rejected.  The window is
anchored at the creation time of the order, not at pickup time. -/
theorem postFeedback_characterization (orders : List Order) (ratings : List RatingDoc)
    (cid oid : Nat) (r : Int) (comment : Option String) (now : Int) (o : Order)
    (hr1 : 1 ≤ r) (hr5 : r ≤ 5) (hfind : findOrder orders oid = some o)
    (hown : o.customer = cid) :
    ((postFeedback orders ratings true cid oid r comment now).1 = .created
      ↔ o.status = .picked ∧ ¬(o.createdAt < now - WEEK_MS)
        ∧ ¬∃ rt ∈ ratings, rt.order = o.id ∧ rt.customer = cid)
    ∧ ((postFeedback orders ratings true cid oid r comment now).1 = .created →
        (postFeedback orders ratings true cid oid r comment now).2.1
            = setOrderStatus orders o.id .completed
        ∧ (postFeedback orders ratings true cid oid r comment now).2.2
            = ratings ++ [⟨o.id, cid, some o.company, r, comment, ""⟩]) := by
  have hbad : (decide (r = 0) || decide (r < 1) || decide (5 < r)) = false := by
    have h0 : ¬(r = 0) := by omega
    have h1 : ¬(r < 1) := by omega
    have h5 : ¬(5 < r) := by omega
    simp [h0, h1, h5]
  have hany : (ratings.any (fun rt => decide (rt.order = o.id) && decide (rt.customer = cid)))
      = true ↔ ∃ rt ∈ ratings, rt.order = o.id ∧ rt.customer = cid := by
    simp [List.any_eq_true]
  have hred : postFeedback orders ratings true cid oid r comment now
      = (if !(decide (o.status = .picked)) then (.notPicked, orders, ratings)
        else if decide (o.createdAt < now - WEEK_MS) then (.windowExpired, orders, ratings)
        else if ratings.any (fun rt => decide (rt.order = o.id) && decide (rt.customer = cid))
        then (.alreadyRated, orders, ratings)
        else (.created, setOrderStatus orders o.id .completed,
          ratings ++ [⟨o.id, cid, some o.company, r, comment, ""⟩])) := by
    unfold postFeedback
    rw [hfind]
    simp [hbad, hown]
  rw [hred]
  split_ifs with hA hB hC
  · simp only [Bool.not_eq_eq_eq_not, Bool.not_true, decide_eq_false_iff_not] at hA
    refine ⟨?_, ?_⟩
    · constructor
      · intro hx
        exact hx.elim
      · rintro ⟨hx, -, -⟩
        exact absurd hx hA
    · intro hx
      exact hx.elim
  · simp only [decide_eq_true_eq] at hB
    refine ⟨?_, ?_⟩
    · constructor
      · intro hx
        exact hx.elim
      · rintro ⟨-, hx, -⟩
        exact absurd hB hx
    · intro hx
      exact hx.elim
  · refine ⟨?_, ?_⟩
    · constructor
      · intro hx
        exact hx.elim
      · rintro ⟨-, -, hx⟩
        exact absurd (hany.mp hC) hx
    · intro hx
      exact hx.elim
  · simp only [Bool.not_eq_eq_eq_not, Bool.not_true, decide_eq_false_iff_not,
      Decidable.not_not] at hA
    simp only [decide_eq_true_eq] at hB
    refine ⟨?_, ?_⟩
    · exact iff_of_true rfl ⟨hA, hB, fun hx => hC (hany.mpr hx)⟩
    · exact fun _ => ⟨rfl, rfl⟩

/-- Witness for C9 (amended): a picked order created at t = 0 is rated 5 at
t = 1000 and the submission is accepted. -/
theorem postFeedback_characterization_witness :
    ((postFeedback [⟨5, 2, 3, [], 10, none, none, none, .picked, 0⟩] [] true 2 5 5 none
        1000).1 = .created
      ↔ (⟨5, 2, 3, [], 10, none, none, none, .picked, 0⟩ : Order).status = .picked
        ∧ ¬((0 : Int) < 1000 - WEEK_MS)
        ∧ ¬∃ rt ∈ ([] : List RatingDoc), rt.order = 5 ∧ rt.customer = 2) := by
  have h := postFeedback_characterization
    [(⟨5, 2, 3, [], 10, none, none, none, .picked, 0⟩ : Order)] [] 2 5 5 none 1000
    (⟨5, 2, 3, [], 10, none, none, none, .picked, 0⟩ : Order)
    (by decide) (by decide) rfl rfl
  exact h.1

end Bookworm
